import Mathlib

/-!
Verification development for the egui_dnd drag-and-drop list-reordering
widget and its demo application.

The library crate's entry points (`dnd`, `Dnd::show`, `Dnd::show_vec`,
`Dnd::_show_with_inner` in `src/lib.rs`) and the demo (`main.rs`) are
embedded directly from the source.  The crate's inner modules
(`state.rs`, `item.rs`, `utils.rs`), which hold the drag tracker
(`DragDropUi::ui`), the response type (`DragDropResponse`,
`DragUpdate`, `update_vec`) and the index-shifting helper, are not part
of the sources available here; those definitions are modelled from the
specification and are marked `Modelled from the spec:` below.

The host toolkit (egui) is third-party: its widget-id type and its
per-id temporary data store are modelled as a hash path and an
association map, which is the observable behaviour the library relies
on.
-/

namespace EguiDnd

/-- Model of the toolkit's widget `Id`: a path of hash components.
`Id::new` starts the path from the caller's `id_source`;
`Id::with` appends one component. -/
structure Id where
  path : List String
deriving DecidableEq, Repr

/-- `Id::new(id_source)`. -/
def Id.new (id_source : String) : Id :=
  ⟨[id_source]⟩

/-- `Id::with(component)` (named `withComponent` because `with` is a
reserved word here). -/
def Id.withComponent (id : Id) (component : String) : Id :=
  ⟨id.path ++ [component]⟩

/-- Modelled from the spec: the drag state of §3, kept in the missing
`state.rs`: `{Idle | Dragging(dragged_index, current_pointer_offset)}`. -/
inductive DragState where
  | idle : DragState
  | dragging (dragged_index : Nat) (current_pointer_offset : ℚ) : DragState
deriving DecidableEq, Repr

/-- Modelled from the spec: the per-widget persistent state
(`DragDropUi` in the missing `state.rs`) is the drag state of §3. -/
structure DragDropUi where
  state : DragState
deriving DecidableEq, Repr

/-- The `Default` of `DragDropUi` is the `Idle` state: the spec resets
to it whenever the toolkit's state store is cleared. -/
instance : Inhabited DragDropUi :=
  ⟨⟨DragState.idle⟩⟩

/-- Model of egui's per-id temporary data store
(`Ui::data_mut`, `get_temp_mut_or_default`, `insert_temp`):
an association map from widget ids to stored drag state, newest
binding first. -/
abbrev Store := List (Id × DragDropUi)

/-- `get_temp`: the newest value stored under `id`, if any. -/
def Store.get_temp (s : Store) (id : Id) : Option DragDropUi :=
  (s.find? fun p => decide (p.1 = id)).map Prod.snd

/-- `insert_temp`: store `v` under `id`, shadowing older bindings. -/
def Store.insert_temp (s : Store) (id : Id) (v : DragDropUi) : Store :=
  (id, v) :: s

/-- Clearing the toolkit's state store. -/
def Store.clear : Store :=
  []

/-- Modelled from the spec: the single `(from_index, to_index)` move
instruction emitted on drag release (`DragUpdate` in the missing
`state.rs`). -/
structure DragUpdate where
  from_index : Nat
  to_index : Nat
deriving DecidableEq, Repr

/-- Modelled from the spec: why a drag ended without a move; §4.1 names
external cancellation (e.g. the pointer leaves the window).  The demo
queries it through `DragDropResponse::cancellation_reason`. -/
inductive CancellationReason where
  | externalCancel : CancellationReason
deriving DecidableEq, Repr

/-- Modelled from the spec: the frame response of §6 — whether a
reorder occurred and, when one did, the `(from, to)` pair; plus the
cancellation reason the demo prints (`DragDropResponse` in the missing
`state.rs`). -/
structure DragDropResponse where
  update : Option DragUpdate
  cancellation_reason : Option CancellationReason
deriving DecidableEq, Repr

/-- A frame response carrying no move and no cancellation. -/
def DragDropResponse.empty : DragDropResponse :=
  ⟨Option.none, Option.none⟩

/-- Modelled from the spec: §8's reorder — remove the item at
`from_index` and re-insert it at `to_index`, every other item keeping
its relative order; out-of-range indices make the operation a no-op
frame per §7 (`shift_vec` in the missing `utils.rs`). -/
def shift_vec (from_index to_index : Nat) (items : List α) : List α :=
  match items[from_index]? with
  | Option.none => items
  | Option.some x =>
      let rest := items.eraseIdx from_index
      rest.insertIdx (min to_index rest.length) x

/-- Modelled from the spec: §2's "caller applies it to its own ordered
list" (`DragDropResponse::update_vec` in the missing `state.rs`):
apply the emitted move, if any, to the caller's list. -/
def DragDropResponse.update_vec (r : DragDropResponse) (items : List α) : List α :=
  match r.update with
  | Option.none => items
  | Option.some u => shift_vec u.from_index u.to_index items

/-- Modelled from the spec: the per-frame pointer input the toolkit
delivers (§2): nothing, a drag starting on an item, pointer motion, a
release, or an external cancellation (§4.1). -/
inductive PointerEvent where
  | quiet : PointerEvent
  | press (item_index : Nat) (off : ℚ) : PointerEvent
  | drag (pos : ℚ) : PointerEvent
  | release (pos : ℚ) : PointerEvent
  | cancel : PointerEvent
deriving DecidableEq, Repr

/-- Modelled from the spec: §2's "widget maps pointer position to a
hovered list index" — the first item whose extent along the drag axis
contains the pointer. -/
def hovered_index (rects : List (ℚ × ℚ)) (pos : ℚ) : Option Nat :=
  rects.findIdx? fun r => decide (r.1 ≤ pos ∧ pos ≤ r.2)

/-- Modelled from the spec: §4.1's tie-break policy — the insertion
point is the midpoint of the hovered item's extent along the drag axis:
a pointer before the midpoint inserts before the item, at or past the
midpoint inserts after it. -/
def insertion_index (rects : List (ℚ × ℚ)) (pos : ℚ) : Option Nat :=
  (hovered_index rects pos).map fun h =>
    let r := rects.getD h (0, 0)
    if pos < (r.1 + r.2) / 2 then h else h + 1

/-- Modelled from the spec: one frame of §4.1's drag tracker
(`DragDropUi::ui` in the missing `state.rs`).  `n` is the number of
items drawn this frame and `rects` their extents along the drag axis.
Idle: a press on an existing item starts a drag.  Dragging: motion
tracks the pointer, release emits the single move instruction computed
by `insertion_index`, external cancellation resets to Idle without
emitting a move; a stored dragged index that no longer exists makes the
frame a no-op reset (§7). -/
def DragDropUi.ui_step (dui : DragDropUi) (n : Nat) (rects : List (ℚ × ℚ))
    (event : PointerEvent) : DragDropUi × DragDropResponse :=
  match dui.state with
  | DragState.idle =>
      match event with
      | PointerEvent.press i off =>
          if i < n then (⟨DragState.dragging i off⟩, DragDropResponse.empty)
          else (⟨DragState.idle⟩, DragDropResponse.empty)
      | _ => (⟨DragState.idle⟩, DragDropResponse.empty)
  | DragState.dragging i off =>
      if i < n then
        match event with
        | PointerEvent.cancel =>
            (⟨DragState.idle⟩,
              ⟨Option.none, Option.some CancellationReason.externalCancel⟩)
        | PointerEvent.drag p =>
            (⟨DragState.dragging i p⟩, DragDropResponse.empty)
        | PointerEvent.release p =>
            (⟨DragState.idle⟩,
              ⟨(insertion_index rects p).map fun j => ⟨i, j⟩, Option.none⟩)
        | _ => (⟨DragState.dragging i off⟩, DragDropResponse.empty)
      else
        (⟨DragState.idle⟩, DragDropResponse.empty)

/-- The per-frame context the toolkit supplies to one `show` call:
item extents along the drag axis and the pointer event. -/
structure FrameContext where
  rects : List (ℚ × ℚ)
  event : PointerEvent
deriving DecidableEq, Repr

/-- Modelled from the spec: the drawing pass of `DragDropUi::ui` (in
the missing `state.rs`) visits the items in the order given — the
widget only observes them — and steps the drag tracker once.  The third
component records the traversal order of the items. -/
def DragDropUi.ui_run (dui : DragDropUi) (items : List α) (ctx : FrameContext) :
    DragDropUi × DragDropResponse × List α :=
  let drawn := items.foldl (fun acc x => acc ++ [x]) []
  let stepped := dui.ui_step items.length ctx.rects ctx.event
  (stepped.1, stepped.2, drawn)

/-- `Dnd` from `lib.rs`: the widget id and the loaded drag state. -/
structure Dnd where
  id : Id
  drag_drop_ui : DragDropUi
deriving DecidableEq, Repr

/-- `dnd` from `lib.rs`: derive the widget id as
`Id::new(id_source).with("dnd")` and load the stored state from the
toolkit store; `get_temp_mut_or_default` inserts the default (Idle)
when nothing was stored under the id. -/
def dnd (store : Store) (id_source : String) : Dnd × Store :=
  match store.get_temp ((Id.new id_source).withComponent ("dnd")) with
  | Option.some cur => (⟨(Id.new id_source).withComponent ("dnd"), cur⟩, store)
  | Option.none =>
      (⟨(Id.new id_source).withComponent ("dnd"), default⟩,
        store.insert_temp ((Id.new id_source).withComponent ("dnd")) default)

/-- `Dnd::_show_with_inner` from `lib.rs`: run the inner frame and
write the updated drag state back into the toolkit store under the
widget id. -/
def Dnd._show_with_inner (d : Dnd) (store : Store) (items : List α)
    (ctx : FrameContext) : DragDropResponse × Store × List α :=
  let r := d.drag_drop_ui.ui_run items ctx
  (r.2.1, store.insert_temp d.id r.1, r.2.2)

/-- `Dnd::show` from `lib.rs` (named `show'` because `show` is a
reserved word here): draw the items through the drag-drop UI and return
the frame response; the items are only iterated, never reordered. -/
def Dnd.show' (d : Dnd) (store : Store) (items : List α)
    (ctx : FrameContext) : DragDropResponse × Store × List α :=
  d._show_with_inner store items ctx

/-- `Dnd::show_vec` from `lib.rs`: same as `show`, then apply the
response's move to the caller's list with `update_vec`. -/
def Dnd.show_vec (d : Dnd) (store : Store) (items : List α)
    (ctx : FrameContext) : DragDropResponse × Store × List α :=
  let r := d.show' store items ctx
  (r.1, r.2.1, r.1.update_vec items)

/-- The composition `Dnd::show` followed by
`DragDropResponse::update_vec` on the same slice, spelled out as the
specification side of the refinement claim about `show_vec`. -/
def Dnd.show_then_update (d : Dnd) (store : Store) (items : List α)
    (ctx : FrameContext) : DragDropResponse × Store × List α :=
  let r := d.show' store items ctx
  (r.1, r.2.1, r.1.update_vec r.2.2)

/-! Demo application (`fancy-example/src/main.rs`). -/

/-- `Color32` from the toolkit, as the demo uses it: rgba bytes; only
the values matter here. -/
structure Color32 where
  r : Nat
  g : Nat
  b : Nat
  a : Nat
deriving DecidableEq, Repr

/-- `Color` from the demo: a named color item; its `Hash` instance
hashes only `index`, so `index` is the item identity. -/
structure Color where
  color : Color32
  name : String
  rounded : Bool
  index : Nat
deriving DecidableEq, Repr

/-- `colors` from the demo: the three starting items
(hex 642CA9, 2A9D8F, E9C46A). -/
def colors : List Color :=
  [ ⟨⟨0x64, 0x2C, 0xA9, 0xFF⟩, "Panic Purple", false, 0⟩,
    ⟨⟨0x2A, 0x9D, 0x8F, 0xFF⟩, "Generic Green", false, 1⟩,
    ⟨⟨0xE9, 0xC4, 0x6A, 0xFF⟩, "Ownership Orange*", false, 2⟩ ]

/-- `dnd_ui` from the demo: runs the widget under id source
`"fancy_dnd"` (via `show_custom`, which draws the items in order with
the frame semantics of the drag tracker), then applies `update_vec` to
the caller's items and inspects `cancellation_reason`. -/
def dnd_ui (store : Store) (items : List Color) (ctx : FrameContext) :
    DragDropResponse × Store × List Color :=
  let w := dnd store ("fancy_dnd")
  let r := w.1.show' w.2 items ctx
  (r.1, r.2.1, r.1.update_vec items)

/-- `Gradient` from the demo: a list of colors. -/
structure Gradient where
  colors : List Color32
deriving DecidableEq, Repr

/-- `vertex_gradient` from the demo `main.rs`: asserts `n >= 2`
(modelled as returning `none` exactly when the assertion fires), then
adds two vertices per color and, between consecutive rows, the two
triangles `(2i, 2i+1, 2i+2)` and `(2i+1, 2i+2, 2i+3)`.  The float
vertex positions and animated colors are not modelled; the integer
triangle indices the code computes are. -/
def vertex_gradient (gradient : Gradient) : Option (List (Nat × Nat × Nat)) :=
  let n := gradient.colors.length
  if 2 ≤ n then
    Option.some
      ((List.range n).foldl
        (fun tris i =>
          if i < n - 1 then
            tris ++ [(2 * i, 2 * i + 1, 2 * i + 2), (2 * i + 1, 2 * i + 2, 2 * i + 3)]
          else tris)
        [])
  else Option.none

/-- The gradient call in `app` (`main.rs`): `vertex_gradient` is
invoked only when `items.len() == 3`, and the `Gradient` it receives
collects exactly one color per item. -/
def app_gradient_call (items : List Color) : Option Gradient :=
  if items.length = 3 then Option.some ⟨items.map Color.color⟩ else Option.none

/-! Helper lemmas shared by the claim theorems. -/

theorem Store.get_temp_insert_self (s : Store) (id : Id) (v : DragDropUi) :
    (s.insert_temp id v).get_temp id = Option.some v := by
  simp [Store.insert_temp, Store.get_temp, List.find?_cons_of_pos]

theorem Store.get_temp_insert_ne (s : Store) (id1 id2 : Id) (v : DragDropUi)
    (h : id1 ≠ id2) : (s.insert_temp id1 v).get_temp id2 = s.get_temp id2 := by
  unfold Store.insert_temp Store.get_temp
  rw [List.find?_cons_of_neg]
  simp [h]

theorem foldl_append_singleton (l : List α) :
    ∀ acc : List α, l.foldl (fun a x => a ++ [x]) acc = acc ++ l := by
  induction l with
  | nil => intro acc; simp
  | cons x xs ih => intro acc; simp [List.foldl_cons, ih]

theorem ui_run_items (dui : DragDropUi) (items : List α) (ctx : FrameContext) :
    (dui.ui_run items ctx).2.2 = items := by
  simp [DragDropUi.ui_run, foldl_append_singleton]

theorem show_items (d : Dnd) (store : Store) (items : List α) (ctx : FrameContext) :
    (d.show' store items ctx).2.2 = items := by
  simp [Dnd.show', Dnd._show_with_inner, ui_run_items]

theorem show_response (d : Dnd) (store : Store) (items : List α) (ctx : FrameContext) :
    (d.show' store items ctx).1
      = (d.drag_drop_ui.ui_step items.length ctx.rects ctx.event).2 :=
  rfl

theorem show_store (d : Dnd) (store : Store) (items : List α) (ctx : FrameContext) :
    (d.show' store items ctx).2.1
      = store.insert_temp d.id
          (d.drag_drop_ui.ui_step items.length ctx.rects ctx.event).1 :=
  rfl

theorem dnd_fst_id (store : Store) (src : String) :
    (dnd store src).1.id = (Id.new src).withComponent ("dnd") := by
  unfold dnd
  cases h : Store.get_temp store ((Id.new src).withComponent ("dnd")) <;> simp

theorem dnd_after_insert (store : Store) (src : String) (v : DragDropUi) :
    (dnd (store.insert_temp ((Id.new src).withComponent ("dnd")) v) src).1.drag_drop_ui
      = v := by
  unfold dnd
  rw [Store.get_temp_insert_self]

theorem dnd_fst_congr (store store' : Store) (src : String)
    (h : store.get_temp ((Id.new src).withComponent ("dnd"))
       = store'.get_temp ((Id.new src).withComponent ("dnd"))) :
    (dnd store src).1 = (dnd store' src).1 := by
  unfold dnd
  rw [h]
  cases h2 : Store.get_temp store' ((Id.new src).withComponent ("dnd")) <;> simp

theorem update_vec_none (r : DragDropResponse) (items : List α)
    (h : r.update = Option.none) : r.update_vec items = items := by
  simp [DragDropResponse.update_vec, h]

theorem ui_step_cancel (dui : DragDropUi) (n : Nat) (rects : List (ℚ × ℚ)) :
    (dui.ui_step n rects PointerEvent.cancel).1 = ⟨DragState.idle⟩ ∧
    (dui.ui_step n rects PointerEvent.cancel).2.update = Option.none := by
  rcases dui with ⟨st⟩
  cases st with
  | idle => simp [DragDropUi.ui_step, DragDropResponse.empty]
  | dragging i off =>
      by_cases hi : i < n <;>
        simp [DragDropUi.ui_step, hi, DragDropResponse.empty]

/-! Claim theorems. -/

/-- C5: the widget never takes ownership of the caller's list and
`Dnd::show` never changes its order — after a `show` call the items come
back exactly as given, in the same order; only `show_vec` (or the caller
applying the returned update) mutates the order. -/
theorem show_never_reorders (d : Dnd) (store : Store) (items : List α)
    (ctx : FrameContext) :
    (d.show' store items ctx).2.2 = items ∧
    (d.show_vec store items ctx).2.2
      = (d.show' store items ctx).1.update_vec items := by
  refine ⟨show_items d store items ctx, ?_⟩
  simp [Dnd.show_vec]

/-- C8: `Dnd::show_vec` is the composition of `Dnd::show` followed by
`DragDropResponse::update_vec` on the same slice: it returns the same
response and store as `show` and leaves the slice in the state
`update_vec` applied to that response (and to the slice as `show` left
it) produces. -/
theorem show_vec_refines_show_then_update (d : Dnd) (store : Store)
    (items : List α) (ctx : FrameContext) :
    d.show_vec store items ctx = d.show_then_update store items ctx := by
  simp [Dnd.show_vec, Dnd.show_then_update, show_items]

/-- C4: drag state is per-widget-id temporary state in the toolkit's
memory store: the state written back at the end of one `show` call under
a widget id is exactly the state the next `dnd` call with the same
`id_source` loads, and on a cleared state store `dnd` loads the default
(Idle) state. -/
theorem state_roundtrip_and_clear (store : Store) (src : String)
    (items : List α) (ctx : FrameContext) :
    (dnd ((dnd store src).1.show' (dnd store src).2 items ctx).2.1 src).1.drag_drop_ui
      = ((dnd store src).1.drag_drop_ui.ui_step items.length ctx.rects ctx.event).1 ∧
    (dnd Store.clear src).1.drag_drop_ui = ⟨DragState.idle⟩ := by
  constructor
  · rw [show_store, dnd_fst_id]
    exact dnd_after_insert _ src _
  · rfl

theorem shift_vec_spec (items : List α) (i j : Nat) (hi : i < items.length)
    (hj : j < items.length) :
    (shift_vec i j items).length = items.length ∧
    (shift_vec i j items)[j]? = items[i]? ∧
    (shift_vec i j items).eraseIdx j = items.eraseIdx i := by
  have hlen : (items.eraseIdx i).length = items.length - 1 := by
    rw [List.length_eraseIdx, if_pos hi]
  have hj' : j ≤ (items.eraseIdx i).length := by omega
  have hsv : shift_vec i j items = (items.eraseIdx i).insertIdx j items[i] := by
    simp [shift_vec, List.getElem?_eq_getElem hi, min_eq_left hj']
  rw [hsv]
  refine ⟨?_, ?_, ?_⟩
  · rw [List.length_insertIdx j _ hj']
    omega
  · have hlt : j < ((items.eraseIdx i).insertIdx j items[i]).length := by
      rw [List.length_insertIdx j _ hj']
      omega
    rw [List.getElem?_eq_getElem hlt, List.getElem?_eq_getElem hi,
      List.getElem_insertIdx_self _ _ _ hj']
  · exact List.eraseIdx_insertIdx j _

/-- C1: applying the reorder that a completed drag of item `i` to
position `j` produces (as `show_vec` does via `update_vec`) yields a
list of the same length in which position `j` holds the dragged item
and removing it gives back the original list without item `i` — i.e.
the item is moved and all other items preserve their relative order. -/
theorem update_vec_moves_item (items : List α) (i j : Nat) (r : DragDropResponse)
    (hi : i < items.length) (hj : j < items.length)
    (hr : r.update = Option.some ⟨i, j⟩) :
    (r.update_vec items).length = items.length ∧
    (r.update_vec items)[j]? = items[i]? ∧
    (r.update_vec items).eraseIdx j = items.eraseIdx i := by
  have h := shift_vec_spec items i j hi hj
  simpa [DragDropResponse.update_vec, hr] using h

/-- Witness for C1: moving the first of three items to the last
position. -/
theorem update_vec_moves_item_witness :
    ((⟨Option.some ⟨0, 2⟩, Option.none⟩ : DragDropResponse).update_vec
        [(10 : Nat), 20, 30]).length = ([(10 : Nat), 20, 30] : List Nat).length ∧
    ((⟨Option.some ⟨0, 2⟩, Option.none⟩ : DragDropResponse).update_vec
        [(10 : Nat), 20, 30])[2]? = ([(10 : Nat), 20, 30] : List Nat)[0]? ∧
    ((⟨Option.some ⟨0, 2⟩, Option.none⟩ : DragDropResponse).update_vec
        [(10 : Nat), 20, 30]).eraseIdx 2 = ([(10 : Nat), 20, 30] : List Nat).eraseIdx 0 :=
  update_vec_moves_item [(10 : Nat), 20, 30] 0 2 ⟨Option.some ⟨0, 2⟩, Option.none⟩
    (by decide) (by decide) (by decide)

/-- C6: a frame whose stored drag state is inconsistent with the
current input (a dragged index that no longer exists) is a no-op: no
reorder is reported, applying the response leaves the caller's list
unchanged, and the items come back as given (the functions are total,
so no panic or error value exists). -/
theorem inconsistent_state_noop (d : Dnd) (store : Store) (items : List α)
    (ctx : FrameContext) (i : Nat) (off : ℚ)
    (hs : d.drag_drop_ui.state = DragState.dragging i off)
    (hbad : items.length ≤ i) :
    (d.show' store items ctx).1.update = Option.none ∧
    (d.show' store items ctx).1.update_vec items = items ∧
    (d.show' store items ctx).2.2 = items := by
  have hupd : (d.show' store items ctx).1.update = Option.none := by
    rw [show_response]
    unfold DragDropUi.ui_step
    rw [hs]
    have hn : ¬ i < items.length := by omega
    simp [hn, DragDropResponse.empty]
  exact ⟨hupd, update_vec_none _ _ hupd, show_items d store items ctx⟩

/-- Witness for C6: a stored dragged index 5 against a one-item list. -/
theorem inconsistent_state_noop_witness :
    ((⟨Id.new ("w"), ⟨DragState.dragging 5 0⟩⟩ : Dnd).show' []
        [(7 : Nat)] ⟨[], PointerEvent.quiet⟩).1.update = Option.none ∧
    ((⟨Id.new ("w"), ⟨DragState.dragging 5 0⟩⟩ : Dnd).show' []
        [(7 : Nat)] ⟨[], PointerEvent.quiet⟩).1.update_vec [(7 : Nat)] = [(7 : Nat)] ∧
    ((⟨Id.new ("w"), ⟨DragState.dragging 5 0⟩⟩ : Dnd).show' []
        [(7 : Nat)] ⟨[], PointerEvent.quiet⟩).2.2 = [(7 : Nat)] :=
  inconsistent_state_noop ⟨Id.new ("w"), ⟨DragState.dragging 5 0⟩⟩ []
    [(7 : Nat)] ⟨[], PointerEvent.quiet⟩ 5 0 rfl (by decide)

/-- C3: on an externally cancelled drag the demo's `dnd_ui` frame
reports no reorder, leaves the caller's list unchanged, and the drag
state stored back under the widget's id is Idle. -/
theorem cancel_resets_idle_no_move (store : Store) (items : List Color)
    (ctx : FrameContext) (h : ctx.event = PointerEvent.cancel) :
    (dnd_ui store items ctx).1.update = Option.none ∧
    (dnd_ui store items ctx).2.2 = items ∧
    (dnd_ui store items ctx).2.1.get_temp ((Id.new ("fancy_dnd")).withComponent ("dnd"))
      = Option.some ⟨DragState.idle⟩ := by
  obtain ⟨rects, ev⟩ := ctx
  simp only at h
  subst h
  obtain ⟨hstate, hupd⟩ :=
    ui_step_cancel (dnd store ("fancy_dnd")).1.drag_drop_ui items.length rects
  refine ⟨hupd, update_vec_none _ items hupd, ?_⟩
  show (((dnd store ("fancy_dnd")).2).insert_temp (dnd store ("fancy_dnd")).1.id
      ((dnd store ("fancy_dnd")).1.drag_drop_ui.ui_step items.length rects
        PointerEvent.cancel).1).get_temp
      ((Id.new ("fancy_dnd")).withComponent ("dnd")) = Option.some ⟨DragState.idle⟩
  rw [hstate, dnd_fst_id]
  exact Store.get_temp_insert_self _ _ _

/-- Witness for C3: a cancel frame on the demo's three starting
colors. -/
theorem cancel_resets_idle_no_move_witness :
    (dnd_ui [] colors ⟨[], PointerEvent.cancel⟩).1.update = Option.none ∧
    (dnd_ui [] colors ⟨[], PointerEvent.cancel⟩).2.2 = colors ∧
    (dnd_ui [] colors ⟨[], PointerEvent.cancel⟩).2.1.get_temp
        ((Id.new ("fancy_dnd")).withComponent ("dnd"))
      = Option.some ⟨DragState.idle⟩ :=
  cancel_resets_idle_no_move [] colors ⟨[], PointerEvent.cancel⟩ rfl

/-- C7: the insertion index uses the midpoint tie-break — for the
hovered item with extent `[a, b]` along the drag axis, a pointer before
`(a + b) / 2` inserts before the item and a pointer at or past it
inserts after. -/
theorem insertion_midpoint_tiebreak (rects : List (ℚ × ℚ)) (pos : ℚ)
    (h : Nat) (a b : ℚ) (hh : hovered_index rects pos = Option.some h)
    (hr : rects[h]? = Option.some (a, b)) :
    insertion_index rects pos
      = Option.some (if pos < (a + b) / 2 then h else h + 1) := by
  unfold insertion_index
  rw [hh]
  simp [List.getD_eq_getElem?_getD, hr]

/-- Witness for C7: one item spanning `[0, 4]`, pointer at 1. -/
theorem insertion_midpoint_tiebreak_witness :
    insertion_index [((0 : ℚ), 4)] 1
      = Option.some (if (1 : ℚ) < (0 + 4) / 2 then 0 else 0 + 1) :=
  insertion_midpoint_tiebreak [((0 : ℚ), 4)] 1 0 0 4 (by decide) (by decide)

/-- C10: the `n >= 2` assertion inside the demo's `vertex_gradient`
never fires on a reachable call: `app` invokes it only when the item
list has length 3, passing one color per item, so the gradient length
is 3. -/
theorem vertex_gradient_assert_holds (items : List Color) (g : Gradient)
    (h : app_gradient_call items = Option.some g) :
    (vertex_gradient g).isSome = true := by
  unfold app_gradient_call at h
  by_cases h3 : items.length = 3
  · rw [if_pos h3] at h
    obtain rfl : Gradient.mk (items.map Color.color) = g := Option.some.inj h
    simp [vertex_gradient, h3]
  · rw [if_neg h3] at h
    exact absurd h (by simp)

/-- Witness for C10: the demo's three starting colors. -/
theorem vertex_gradient_assert_holds_witness :
    (vertex_gradient ⟨colors.map Color.color⟩).isSome = true :=
  vertex_gradient_assert_holds colors ⟨colors.map Color.color⟩ rfl

/-- C2: the caller-facing `show` reports a reorder only on
drag-release: whenever the frame response carries a `(from, to)`
update, the frame's event was a pointer release, `from` is the index
that was being dragged (and exists among the items), and `to` is the
insertion index computed for the release position; the response holds
at most one such update. -/
theorem show_emits_update_only_on_release (d : Dnd) (store : Store)
    (items : List α) (ctx : FrameContext) (u : DragUpdate)
    (h : (d.show' store items ctx).1.update = Option.some u) :
    ∃ p, ctx.event = PointerEvent.release p ∧
      (∃ off, d.drag_drop_ui.state = DragState.dragging u.from_index off) ∧
      u.from_index < items.length ∧
      insertion_index ctx.rects p = Option.some u.to_index := by
  rw [show_response] at h
  obtain ⟨rects, ev⟩ := ctx
  obtain ⟨id, ⟨st⟩⟩ := d
  simp only at h ⊢
  cases st with
  | idle =>
      cases ev with
      | press i o =>
          simp only [DragDropUi.ui_step] at h
          split at h <;> simp [DragDropResponse.empty] at h
      | quiet => simp [DragDropUi.ui_step, DragDropResponse.empty] at h
      | drag p => simp [DragDropUi.ui_step, DragDropResponse.empty] at h
      | release p => simp [DragDropUi.ui_step, DragDropResponse.empty] at h
      | cancel => simp [DragDropUi.ui_step, DragDropResponse.empty] at h
  | dragging i off =>
      simp only [DragDropUi.ui_step] at h
      by_cases hi : i < items.length
      · rw [if_pos hi] at h
        cases ev with
        | release p =>
            simp only [] at h
            rw [Option.map_eq_some'] at h
            obtain ⟨j, hj, hu⟩ := h
            subst hu
            exact ⟨p, rfl, ⟨off, rfl⟩, hi, hj⟩
        | cancel => simp at h
        | drag p => simp [DragDropResponse.empty] at h
        | press i2 o2 => simp [DragDropResponse.empty] at h
        | quiet => simp [DragDropResponse.empty] at h
      · rw [if_neg hi] at h
        simp [DragDropResponse.empty] at h

theorem insertion_index_single :
    insertion_index [((0 : ℚ), 4)] 1 = Option.some 0 := by
  have hh : hovered_index [((0 : ℚ), 4)] 1 = Option.some 0 := by decide
  unfold insertion_index
  rw [hh]
  simp only [Option.map_some', List.getD]
  rw [if_pos (by norm_num)]

/-- Witness for C2: a release at position 1 over a single item spanning
`[0, 4]`, while item 0 is being dragged. -/
theorem show_emits_update_only_on_release_witness :
    ∃ p, (⟨[((0 : ℚ), 4)], PointerEvent.release 1⟩ : FrameContext).event
        = PointerEvent.release p ∧
      (∃ off, (⟨Id.new ("w"), ⟨DragState.dragging 0 0⟩⟩ : Dnd).drag_drop_ui.state
        = DragState.dragging (DragUpdate.mk 0 0).from_index off) ∧
      (DragUpdate.mk 0 0).from_index < [(5 : Nat)].length ∧
      insertion_index [((0 : ℚ), 4)] p = Option.some (DragUpdate.mk 0 0).to_index :=
  show_emits_update_only_on_release ⟨Id.new ("w"), ⟨DragState.dragging 0 0⟩⟩ []
    [(5 : Nat)] ⟨[((0 : ℚ), 4)], PointerEvent.release 1⟩ ⟨0, 0⟩ (by
      show (insertion_index [((0 : ℚ), 4)] 1).map (fun j => DragUpdate.mk 0 j)
          = Option.some ⟨0, 0⟩
      rw [insertion_index_single]
      rfl)

/-- C9: distinct widgets have disjoint state: with ids derived as
`Id::new(id_source).with("dnd")`, a full `dnd` + `show` cycle of a
widget whose derived id differs neither changes what a second widget's
`dnd` call loads nor the response of the second widget's `show` call. -/
theorem distinct_ids_isolated (store : Store) (s1 s2 : String)
    (items1 : List α) (ctx1 : FrameContext) (items2 : List β) (ctx2 : FrameContext)
    (h : (Id.new s1).withComponent ("dnd") ≠ (Id.new s2).withComponent ("dnd")) :
    (dnd ((dnd store s1).1.show' (dnd store s1).2 items1 ctx1).2.1 s2).1
      = (dnd store s2).1 ∧
    ((dnd ((dnd store s1).1.show' (dnd store s1).2 items1 ctx1).2.1 s2).1.show'
        (dnd ((dnd store s1).1.show' (dnd store s1).2 items1 ctx1).2.1 s2).2
        items2 ctx2).1
      = ((dnd store s2).1.show' (dnd store s2).2 items2 ctx2).1 := by
  have hget : (((dnd store s1).1.show' (dnd store s1).2 items1 ctx1).2.1).get_temp
      ((Id.new s2).withComponent ("dnd"))
      = store.get_temp ((Id.new s2).withComponent ("dnd")) := by
    rw [show_store, dnd_fst_id, Store.get_temp_insert_ne _ _ _ _ h]
    unfold dnd
    cases h1 : Store.get_temp store ((Id.new s1).withComponent ("dnd")) with
    | none =>
        simp only [h1]
        exact Store.get_temp_insert_ne _ _ _ _ h
    | some cur => simp only [h1]
  have hfst := dnd_fst_congr _ _ s2 hget
  refine ⟨hfst, ?_⟩
  rw [show_response, show_response, hfst]

/-- Witness for C9: widgets with id sources `"a"` and `"b"` over an
empty store. -/
theorem distinct_ids_isolated_witness :
    (dnd ((dnd [] ("a")).1.show' (dnd [] ("a")).2 [(0 : Nat)] ⟨[], PointerEvent.quiet⟩).2.1
        ("b")).1
      = (dnd [] ("b")).1 ∧
    ((dnd ((dnd [] ("a")).1.show' (dnd [] ("a")).2 [(0 : Nat)] ⟨[], PointerEvent.quiet⟩).2.1
          ("b")).1.show'
        (dnd ((dnd [] ("a")).1.show' (dnd [] ("a")).2 [(0 : Nat)] ⟨[], PointerEvent.quiet⟩).2.1
          ("b")).2
        [(1 : Nat)] ⟨[], PointerEvent.quiet⟩).1
      = ((dnd [] ("b")).1.show' (dnd [] ("b")).2 [(1 : Nat)] ⟨[], PointerEvent.quiet⟩).1 :=
  distinct_ids_isolated [] ("a") ("b") [(0 : Nat)] ⟨[], PointerEvent.quiet⟩
    [(1 : Nat)] ⟨[], PointerEvent.quiet⟩ (by decide)

end EguiDnd
